import Mathlib

/-!
Verification of the dependency-resolution-and-installation engine of the
cog-comfyui repository (workflow scanning, artifact canonicalization,
install resumption, retry/backoff, disk preflight).

The Python sources are shallowly embedded: JSON values become the `JValue`
inductive (JSON numbers are modelled as integers; no claim touches float
values), Python dicts become association lists in insertion order, Python
sets become duplicate-free lists built by `addUnique`-style insertion, and
code that can raise inside the single surrounding try/except is modelled
with `Except` whose error is caught at the function boundary.
-/

/-! ## Python string primitives (ASCII fragment used by the sources) -/

/-- Boolean test that `p` is a leading segment of `l` (Python `startswith`). -/
def hasPrefixCL : List Char → List Char → Bool
  | _, [] => true
  | [], _ :: _ => false
  | a :: as, b :: bs => a == b && hasPrefixCL as bs

/-- Boolean test that `s` is a trailing segment of `l` (Python `endswith`):
the last `s.length` characters of `l` equal `s`. -/
def hasSuffixCL (l s : List Char) : Bool :=
  List.drop (l.length - s.length) l == s

/-- Boolean test that `sub` occurs contiguously inside `l` (Python `in`). -/
def hasSubCL : List Char → List Char → Bool
  | [], sub => sub.isEmpty
  | a :: as, sub => hasPrefixCL (a :: as) sub || hasSubCL as sub

/-- ASCII lowering, matching Python `str.lower` on the ASCII inputs the
claims use. -/
def pyLower (s : String) : String := String.mk (s.data.map Char.toLower)

def pyStartsWith (s p : String) : Bool := hasPrefixCL s.data p.data

def pyEndsWith (s e : String) : Bool := hasSuffixCL s.data e.data

def pyContainsSub (s sub : String) : Bool := hasSubCL s.data sub.data

/-- Python whitespace as stripped by `str.strip` (ASCII fragment). -/
def isPySpace (c : Char) : Bool :=
  c == ' ' || c == '\t' || c == '\n' || c == '\r' || c == '\x0b' || c == '\x0c'

/-- Python `str.strip`. -/
def pyStrip (s : String) : String :=
  String.mk (((s.data.dropWhile isPySpace).reverse.dropWhile isPySpace).reverse)

/-! ## Disk preflight (`preload_workflows_build.check_disk_space`)

`get_available_disk_space` returns `-1` when free space cannot be
determined; `check_disk_space` consults it.  The available byte count is
passed explicitly here, standing for the filesystem probe. -/

/-- `check_disk_space(required_bytes)` with the probed free space made an
explicit argument.  Mirrors the three branches of the source: unknown free
space is advisory-OK, then the 10 GiB safety margin branch, then the
no-margin warning branch, else failure. -/
def check_disk_space (available_bytes required_bytes : Int) : Bool :=
  if available_bytes < 0 then
    true
  else
    let required_with_margin := required_bytes + 10 * 1024 * 1024 * 1024
    if available_bytes ≥ required_with_margin then true
    else if available_bytes ≥ required_bytes then true
    else false

/-- Tail of `preload_all_workflows`: when `check_disk_space` fails the run
aborts (exit 1) before the download loop; otherwise every collected weight
is attempted (the source iterates them in sorted order).  Returns the list
of weights whose download is attempted. -/
def preload_downloads_attempted (available_bytes required_bytes : Int)
    (all_weights : List String) : List String :=
  if check_disk_space available_bytes required_bytes then all_weights else []

/-! ## Model-type classifier (`workflow_dependency_installer.detect_model_type`) -/

/-- The ordered keyword groups of `detect_model_type`, in the source's
declaration order (Python dicts iterate in insertion order). -/
def model_type_patterns : List (String × List String) := [
  ("photomaker", ["photomaker"]),
  ("gligen", ["gligen"]),
  ("diffusers", ["/diffusers/", "diffusers_model", "hf-hub", "huggingface"]),
  ("loras", ["_lora.", "-lora.", ".lora", "lora_", "xlora", "locon", "_lyco", "-lyco"]),
  ("vae", ["_vae.", "-vae.", "_vae-", "-vae-", "vae_", " vae", "(vae", "vae)", "vae.safetensors"]),
  ("vae_approx", ["taesd", "vae_approx", "approximation"]),
  ("clip_vision", ["clip_vision", "clip-vision", "clipvision", "vision_model", "siglip"]),
  ("text_encoders", ["text_encoder", "text-encoder", "sd15_clip", "sdxl_clip", "clip"]),
  ("controlnet", ["controlnet", "control_net", "_cnet", "-cnet", "cnet_", "controlnet_", "t2i_adapter"]),
  ("style_models", ["style_model", "stylegan", "aesthetic", "style.safetensors"]),
  ("embeddings", ["embedding", "textual_inversion", "embedding_", "_embedding", "embeddings", "ti_"]),
  ("classifiers", ["classifier", "classification", "safety_checker"]),
  ("upscale_models", ["upscale", "upscaler", "super-resolution", "_x4", "_x2", "_x8", "_x16",
                      "realesrgan", "bsrgan", "esrgan", "gfpgan", "face_restore", "codeformer"]),
  ("diffusion_models", ["unet", "diffusion", "_unet", "-unet", "model_", "flux", "sd_", "hunyuan"]),
  ("hypernetworks", ["hypernet", "hypernetwork"]),
  ("model_patches", ["patch", "lora.patch", "safetensors.patch"]),
  ("audio_encoders", ["audio_encoder", "wav2vec", "vocos"])
]

/-- `detect_model_type(filename, url)`: lowercase both, join with a bar,
return the first keyword group with a substring hit, defaulting to the
`checkpoints` bucket. -/
def detect_model_type (filename : String) (url : String := "") : String :=
  let combined := pyLower filename ++ "|" ++ pyLower url
  match model_type_patterns.find? (fun p => p.2.any (fun k => pyContainsSub combined k)) with
  | some p => p.1
  | none => "checkpoints"

/-! ## Weight-name canonicalization (`weights_downloader.get_canonical_weight_str`) -/

/-- The characters of the synonym suffix `.sft`. -/
def sftSuffix : List Char := ['.', 's', 'f', 't']

/-- The characters of the canonical suffix `.safetensors`. -/
def safetensorsSuffix : List Char :=
  ['.', 's', 'a', 'f', 'e', 't', 'e', 'n', 's', 'o', 'r', 's']

/-- Canonicalization on character lists: a trailing `.sft` is rewritten to
`.safetensors`; every other name is returned unchanged. -/
def canonCL (l : List Char) : List Char :=
  if hasSuffixCL l sftSuffix then l.take (l.length - 4) ++ safetensorsSuffix else l

/-- Modelled from the spec: `get_canonical_weight_str` lives in
`weights_downloader.py`, which is not part of the source tree (only its
callers in `comfyui.py` and the test in `test_weight_loading.py` are).
The spec describes it as a pure, case-preserving, extension-table driven
rewrite in which a `.sft` suffix is rewritten to `.safetensors`
(`model.sft` → `model.safetensors`). -/
def get_canonical_weight_str (w : String) : String := String.mk (canonCL w.data)

/-! ## Clone destination naming (`clone_repo` / `comfyui._clone_repo`)

`repo_name = os.path.basename(repo_url.rstrip("/").replace(".git", ""))`
and `dest = ComfyUI/custom_nodes/<repo_name>`; a clone is skipped when the
destination already exists on disk. -/

/-- Python `rstrip("/")`: drop every trailing slash. -/
def rstripSlash (l : List Char) : List Char :=
  (l.reverse.dropWhile (fun c => c == '/')).reverse

/-- The characters of `.git`. -/
def gitChars : List Char := ['.', 'g', 'i', 't']

/-- Python `replace(".git", "")`: remove every non-overlapping occurrence of
`.git`, scanning left to right. -/
def removeDotGit : List Char → List Char
  | '.' :: 'g' :: 'i' :: 't' :: rest => removeDotGit rest
  | c :: cs => c :: removeDotGit cs
  | [] => []

/-- Python `os.path.basename`: the segment after the last slash. -/
def basenameCL (l : List Char) : List Char :=
  (l.reverse.takeWhile (fun c => c != '/')).reverse

/-- The clone-destination key derived from a repository URL by `clone_repo`
(also `comfyui._clone_repo`). -/
def repo_name_of_url (url : String) : String :=
  String.mk (basenameCL (removeDotGit (rstripSlash url.data)))

/-- The head of `clone_repo` against a filesystem holding the set of
already-present destination names: if the derived destination exists the
call returns at once without cloning (`false`), otherwise the repository is
cloned and its destination comes into existence (`true`). -/
def clone_repo_fs_step (existing : List String) (url : String) : Bool × List String :=
  if repo_name_of_url url ∈ existing then (false, existing)
  else (true, repo_name_of_url url :: existing)

/-! ## Retry with backoff (`clone_repo`, `download_from_url`)

Both loops run `for attempt in range(3)`: a successful attempt returns at
once; a failed attempt removes the partially written destination (directory
for clones, file for downloads) and, while `attempt < 2`, sleeps
`2 ** attempt` time units before retrying; the third failure raises.  The
outcome of each attempt is abstracted by an oracle. -/

/-- Events traced by the retrying clone loop. -/
inductive REv
  /-- The body of try number `i` runs: `git clone` plus the optional pinned
  checkout. -/
  | attempt (i : Nat)
  /-- The except-branch cleanup: the partially written destination directory
  is removed when present. -/
  | cleanup
  /-- A backoff sleep of `t` time units. -/
  | sleep (t : Nat)
deriving DecidableEq, Repr

/-- The `for attempt in range(3)` loop of `clone_repo`, with `fuel`
tracking the remaining iterations and `i` the current attempt index.
Returns the event trace and whether an attempt succeeded (a `false`
outcome means the final exception is raised). -/
def cloneLoop (ok : Nat → Bool) : Nat → Nat → List REv × Bool
  | 0, _ => ([], false)
  | fuel + 1, i =>
    if ok i then ([REv.attempt i], true)
    else if i < 2 then
      let r := cloneLoop ok fuel (i + 1)
      (REv.attempt i :: REv.cleanup :: REv.sleep (2 ^ i) :: r.1, r.2)
    else ([REv.attempt i, REv.cleanup], false)

/-- `clone_repo` after the destination-existence check: the retry loop over
attempts 0, 1, 2. -/
def clone_repo_run (ok : Nat → Bool) : List REv × Bool := cloneLoop ok 3 0

/-- Events traced by the retrying download loop of `download_from_url`. -/
inductive DEv
  /-- The chosen fetch tool (pget/wget/curl) runs try number `i` under its
  hard timeout. -/
  | attempt (i : Nat)
  /-- The except-branch cleanup: the partial destination file is removed
  when present. -/
  | cleanup
  /-- A backoff sleep of `t` time units. -/
  | sleep (t : Nat)
deriving DecidableEq, Repr

/-- The `for attempt in range(3)` loop of `download_from_url`. -/
def downloadLoop (ok : Nat → Bool) : Nat → Nat → List DEv × Bool
  | 0, _ => ([], false)
  | fuel + 1, i =>
    if ok i then ([DEv.attempt i], true)
    else if i < 2 then
      let r := downloadLoop ok fuel (i + 1)
      (DEv.attempt i :: DEv.cleanup :: DEv.sleep (2 ^ i) :: r.1, r.2)
    else ([DEv.attempt i, DEv.cleanup], false)

/-- `download_from_url` after the exists-check and downloader selection:
the retry loop over attempts 0, 1, 2. -/
def download_from_url_run (ok : Nat → Bool) : List DEv × Bool := downloadLoop ok 3 0

/-! ## Base node allow-list and the filter of `install_custom_nodes` -/

/-- `BASE_COMFY_NODES`: the fixed allow-list of node classes shipping with
the engine, transcribed from the source (a Python set; only membership is
used). -/
def BASE_COMFY_NODES : List String := [
  "Reroute", "Note", "MarkdownNote", "Primitive", "CheckpointLoaderSimple",
  "CLIPTextEncode", "CLIPTextEncodeSD3", "ConditioningCombine", "ConditioningSetArea",
  "ConditioningSetAreaPercentage", "ConditioningSetMask", "ControlNetLoader",
  "DualCLIPLoader", "EmptyEvaluateLatents", "EvaluateLatents", "FrequencyDetailTransfer",
  "ImageScale", "ImageScaleBy", "ImageUpscaleWithModel", "KSamplerAdvanced",
  "KSampler", "KSamplerSelect", "LatentBatch", "LatentComposite", "LatentCrop",
  "LatentFlip", "LatentInterpolate", "LatentRotate", "LatentUpscale", "LatentUpscaleBy",
  "LoraLoader", "ModelMergeBlocks", "ModelMergeLatentKeyframes", "ModelMergePatch",
  "ModelMergeSub", "ModelMergeSubStrength", "ModelMergeSubforc", "ModelMergeTogetherStrength",
  "ModelSamplingContinuousEps", "ModelSamplingContinuousV", "ModelSamplingDefault",
  "ModelSamplingDiscreteEps", "ModelSamplingDiscreteV", "ModelSamplingSD3", "SaveImage",
  "VAEDecode", "VAEDecodeTiled", "VAEEncode", "VAEEncodeTiled", "VAELoader",
  "CheckpointLoader", "DualCLIPTextEncode", "UNETLoader", "CLIPLoader",
  "CLIPSetLastLayer", "StyleModelLoader", "STYLEModelLoader", "FreeU",
  "BBoxDetectorCombined", "BBoxDetectorCombinedPreview", "PK_HookedinpaintNoise",
  "GetNode", "Switch", "PrimitiveNode", "StringInput", "IntInput", "FloatInput",
  "BooleanInput", "BooleanToNumber", "BooleanToString"
]

/-- The first step of `install_custom_nodes`:
`custom_nodes_needed = {n for n in node_types if n not in BASE_COMFY_NODES}`.
This — not the Workflow Analyzer — is where base classes are removed. -/
def custom_nodes_needed (node_types : List String) : List String :=
  node_types.filter (fun n => ¬ BASE_COMFY_NODES.contains n)

/-! ## Progress-ledger driven install loops
(`install_custom_nodes` lines 431-467, `download_weights` lines 544-575)

Both loops walk the pending items with the ledger loaded from the progress
file: a ledger hit is skipped outright; otherwise the side effect runs
(abstracted by a success oracle), the item is added to the in-memory
ledger and `save_progress` persists it before the next item is attempted;
a failure prints and exits with status 1.  The best-effort
`requirements.txt` pip install between a successful clone and its save
touches neither the ledger nor the items and is not traced. -/

/-- Events of the repository install loop. -/
inductive IEv
  /-- Ledger hit: the repository is reported already installed and skipped. -/
  | skip (url : String)
  /-- `clone_repo` ran and succeeded for this URL. -/
  | clone (url : String)
  /-- `save_progress` persisted this `installed_repos` ledger. -/
  | save (ledger : List String)
  /-- `clone_repo` raised after its retries were exhausted. -/
  | fail (url : String)
  /-- `sys.exit(1)`. -/
  | exitOne
deriving DecidableEq, Repr

/-- The `for repo_url in repos_to_install` loop of `install_custom_nodes`,
started with the ledger loaded from the progress file. -/
def installReposLoop (ok : String → Bool) : List String → List String → List IEv
  | [], _ => []
  | r :: rest, ledger =>
    if r ∈ ledger then IEv.skip r :: installReposLoop ok rest ledger
    else if ok r then
      IEv.clone r :: IEv.save (r :: ledger) :: installReposLoop ok rest (r :: ledger)
    else [IEv.fail r, IEv.exitOne]

/-- Every `clone` event is immediately followed by a `save` event whose
persisted ledger contains the cloned URL — i.e. the ledger write is durable
before any later item is attempted. -/
def savesAfterClones : List IEv → Bool
  | [] => true
  | IEv.clone r :: rest =>
    match rest with
    | IEv.save L :: rest2 => decide (r ∈ L) && savesAfterClones rest2
    | _ => false
  | _ :: rest => savesAfterClones rest

/-- Events of the weight download loop. -/
inductive WEv
  /-- Ledger hit: the weight is reported already downloaded and skipped. -/
  | skip (w : String)
  /-- The download of this weight (direct URL or source lookup) succeeded. -/
  | download (w : String)
  /-- `save_progress` persisted this `downloaded_weights` ledger. -/
  | save (ledger : List String)
  /-- The download raised or no source was found. -/
  | fail (w : String)
  /-- `sys.exit(1)`. -/
  | exitOne
deriving DecidableEq, Repr

/-- The `for weight in sorted(weights)` loop of `download_weights`, started
with the ledger loaded from the progress file (the argument list stands for
the sorted iteration order). -/
def downloadWeightsLoop (ok : String → Bool) : List String → List String → List WEv
  | [], _ => []
  | w :: rest, ledger =>
    if w ∈ ledger then WEv.skip w :: downloadWeightsLoop ok rest ledger
    else if ok w then
      WEv.download w :: WEv.save (w :: ledger) :: downloadWeightsLoop ok rest (w :: ledger)
    else [WEv.fail w, WEv.exitOne]

/-- Every `download` event is immediately followed by a `save` event whose
persisted ledger contains the downloaded weight. -/
def savesAfterDownloads : List WEv → Bool
  | [] => true
  | WEv.download w :: rest =>
    match rest with
    | WEv.save L :: rest2 => decide (w ∈ L) && savesAfterDownloads rest2
    | _ => false
  | _ :: rest => savesAfterDownloads rest

/-! ## JSON workflow values

Decoded workflow JSON as handled by the analyzers.  Objects keep their
key/value pairs in insertion order, numbers are modelled as integers (no
claim involves float values). -/

inductive JValue
  | null
  | bool (b : Bool)
  | num (n : Int)
  | str (s : String)
  | arr (elems : List JValue)
  | obj (fields : List (String × JValue))

mutual

/-- Structural equality on JSON values. -/
def beqJ : JValue → JValue → Bool
  | JValue.null, JValue.null => true
  | JValue.bool a, JValue.bool b => a == b
  | JValue.num a, JValue.num b => a == b
  | JValue.str a, JValue.str b => a == b
  | JValue.arr a, JValue.arr b => beqJArr a b
  | JValue.obj a, JValue.obj b => beqJObj a b
  | _, _ => false

def beqJArr : List JValue → List JValue → Bool
  | [], [] => true
  | x :: xs, y :: ys => beqJ x y && beqJArr xs ys
  | _, _ => false

def beqJObj : List (String × JValue) → List (String × JValue) → Bool
  | [], [] => true
  | (k, v) :: xs, (k2, v2) :: ys => k == k2 && beqJ v v2 && beqJObj xs ys
  | _, _ => false

end

instance : BEq JValue := ⟨beqJ⟩

/-- Python truthiness of a decoded JSON value. -/
def truthy : JValue → Bool
  | JValue.null => false
  | JValue.bool b => b
  | JValue.num n => n != 0
  | JValue.str s => ¬ s.data.isEmpty
  | JValue.arr l => ¬ l.isEmpty
  | JValue.obj kvs => ¬ kvs.isEmpty

/-- Python `dict.get(key, default)` on an insertion-ordered field list. -/
def jGetD (fields : List (String × JValue)) (key : String) (dflt : JValue) : JValue :=
  match fields.lookup key with
  | some v => v
  | none => dflt

/-- Python set hashability of a decoded JSON value: lists and dicts are
unhashable, so adding one to a set raises `TypeError`. -/
def hashableJ : JValue → Bool
  | JValue.arr _ => false
  | JValue.obj _ => false
  | _ => true

/-- Insertion into a Python set modelled on duplicate-free lists. -/
def addUniqueJ (acc : List JValue) (v : JValue) : List JValue :=
  if acc.contains v then acc else acc ++ [v]

/-! ## Node-class extraction (`extract_nodes_from_workflow`)

Identical in `workflow_dependency_installer.py` and
`preload_workflows_build.py`: collect `class_type` fields in API form,
else `type` fields of the `nodes` array in UI form.  The single
try/except around the body catches any `TypeError` from adding an
unhashable value, returning the classes accumulated so far; the loops
below return the accumulator together with an error flag. -/

/-- The API-format pass: `nodes.add(node_data.get("class_type"))` for every
top-level dict value carrying a `class_type` key.  The flag reports an
unhashable `class_type` value (`TypeError`, caught by the caller). -/
def extractNodesAPILoop : List (String × JValue) → List JValue → List JValue × Bool
  | [], acc => (acc, false)
  | (_, v) :: rest, acc =>
    match v with
    | JValue.obj fields =>
      match fields.lookup "class_type" with
      | some ct =>
        if hashableJ ct then extractNodesAPILoop rest (addUniqueJ acc ct) else (acc, true)
      | none => extractNodesAPILoop rest acc
    | _ => extractNodesAPILoop rest acc

/-- The UI-format pass over the `nodes` array: `nodes.add(node.get("type"))`
for every dict element carrying a `type` key. -/
def extractNodesUILoop : List JValue → List JValue → List JValue × Bool
  | [], acc => (acc, false)
  | JValue.obj fields :: rest, acc =>
    (match fields.lookup "type" with
     | some t =>
       if hashableJ t then extractNodesUILoop rest (addUniqueJ acc t) else (acc, true)
     | none => extractNodesUILoop rest acc)
  | _ :: rest, acc => extractNodesUILoop rest acc

/-- `extract_nodes_from_workflow`: class names are collected verbatim; no
base-class filtering happens here.  A non-dict workflow or a UI `nodes`
value that is not an array contributes nothing (iterating a string or dict
yields no dict elements; iterating a scalar raises and the caught handler
returns the — then empty — accumulator). -/
def extract_nodes_from_workflow (w : JValue) : List JValue :=
  match w with
  | JValue.obj kvs =>
    let r := extractNodesAPILoop kvs []
    if r.2 then r.1
    else if r.1.isEmpty then
      match kvs.lookup "nodes" with
      | some (JValue.arr ns) => (extractNodesUILoop ns []).1
      | _ => r.1
    else r.1
  | _ => []

/-! ## Weight extraction (`extract_weights_from_workflow`)

Two variants exist.  The one in `workflow_dependency_installer.py`
synthesizes positional inputs from UI `widgets_values` and deliberately
keeps URL values; the one in `preload_workflows_build.py` takes
`widgets_values` or `inputs` as-is and filters out URL / data-URI /
path-qualified values.  Both run under a single try/except: an exception
anywhere aborts the scan and the caught handler returns the weights
collected so far, which is the empty set because every raising step occurs
while collecting node inputs, before the extraction loop. -/

/-- The recognized model-input key fragments (a Python set; only an
order-independent `any` is taken over it). -/
def model_input_keys : List String := [
  "ckpt_name", "vae_name", "lora_name", "model_name",
  "clip_name", "embedding_name", "upscale_model_name",
  "diffusers_name", "embeddings", "taesd_name", "conditioning_method",
  "preview_method", "model", "filename"
]

/-- Extensions that are definitely not models. -/
def non_model_extensions : List String := [
  ".mp4", ".mov", ".avi", ".mkv", ".webm",
  ".jpg", ".jpeg", ".png", ".webp", ".gif",
  ".wav", ".mp3", ".flac", ".m4a",
  ".txt", ".json", ".csv"
]

/-- The placeholder input names skipped by both extractors. -/
def placeholder_names : List String := ["image", "video", "audio", "input", "text"]

/-- Model extensions scanned for in CLIP-loader widget slots. -/
def clipSlotExtensions : List String := [".safetensors", ".ckpt", ".pt", ".pth", ".bin"]

/-- Model extensions scanned for in unknown-loader widget slots. -/
def genericSlotExtensions : List String :=
  [".safetensors", ".ckpt", ".pt", ".pth", ".bin", ".gguf"]

/-- `node.get("type", "").lower()`: raises (`AttributeError`) when the
`type` field holds a non-string value. -/
def getNodeTypeLower (fields : List (String × JValue)) : Except Unit String :=
  match fields.lookup "type" with
  | some (JValue.str s) => Except.ok (pyLower s)
  | some _ => Except.error ()
  | none => Except.ok ""

/-- `if len(widgets) > 0 and isinstance(widgets[0], str): synthetic[key] = widgets[0]`.
On a string the subscript yields its first character as a 1-character
string; on a dict `widgets[0]` raises `KeyError` (decoded JSON keys are
strings); on a number or boolean `len` raises `TypeError`. -/
def firstSlot (key : String) (widgets : JValue) : Except Unit (List (String × JValue)) :=
  match widgets with
  | JValue.arr (JValue.str s :: _) => Except.ok [(key, JValue.str s)]
  | JValue.arr _ => Except.ok []
  | JValue.str s =>
    match s.data with
    | c :: _ => Except.ok [(key, JValue.str (String.mk [c]))]
    | [] => Except.ok []
  | _ => Except.error ()

/-- `for i, widget in enumerate(widgets): if isinstance(widget, str) and
any(widget.lower().endswith(ext) ...): synthetic[f"{pfx}{i}"] = widget`.
Enumerating a string yields 1-character strings, which never end with the
multi-character extensions scanned for; enumerating a dict yields its keys;
a number or boolean raises `TypeError`. -/
def scanSlots (exts : List String) (pfx : String) (widgets : JValue) :
    Except Unit (List (String × JValue)) :=
  match widgets with
  | JValue.arr l =>
    Except.ok (l.enum.filterMap fun iw =>
      match iw.2 with
      | JValue.str s =>
        if exts.any (fun e => pyEndsWith (pyLower s) e) then
          some (pfx ++ toString iw.1, JValue.str s)
        else none
      | _ => none)
  | JValue.str _ => Except.ok []
  | JValue.obj kvs =>
    Except.ok (kvs.enum.filterMap fun ikv =>
      if exts.any (fun e => pyEndsWith (pyLower ikv.2.1) e) then
        some (pfx ++ toString ikv.1, JValue.str ikv.2.1)
      else none)
  | _ => Except.error ()

/-- The widget-position mapping of the installer's UI branch, keyed on the
lowercased node type. -/
def synthInputs (nt : String) (widgets : JValue) : Except Unit (List (String × JValue)) :=
  if pyContainsSub nt "checkpoint" || pyContainsSub nt "checkpointloader" then
    firstSlot "ckpt_name" widgets
  else if (pyContainsSub nt "vae" && pyContainsSub nt "loader") || pyContainsSub nt "vaeloader" then
    firstSlot "vae_name" widgets
  else if (pyContainsSub nt "clip" && pyContainsSub nt "loader") || pyContainsSub nt "cliploader"
      || pyContainsSub nt "dualcliploader" then
    scanSlots clipSlotExtensions "clip_name_" widgets
  else if (pyContainsSub nt "lora" && pyContainsSub nt "loader") || pyContainsSub nt "loraloader" then
    firstSlot "lora_name" widgets
  else if pyContainsSub nt "unet" && pyContainsSub nt "loader" then
    firstSlot "model_name" widgets
  else if pyContainsSub nt "upscale" && pyContainsSub nt "model" then
    firstSlot "upscale_model_name" widgets
  else
    scanSlots genericSlotExtensions "model_" widgets

/-- The installer's per-UI-node input collection: when `widgets_values` is
truthy, synthesize positional inputs from it (appending the synthetic dict
when non-empty); afterwards append the node's own `inputs` when truthy. -/
def collectUINode (fields : List (String × JValue)) : Except Unit (List JValue) := do
  let inputs := jGetD fields "inputs" (JValue.obj [])
  let widgets := jGetD fields "widgets_values" (JValue.arr [])
  let synthetic ←
    if truthy widgets then do
      let nt ← getNodeTypeLower fields
      let syn ← synthInputs nt widgets
      pure (if syn.isEmpty then ([] : List JValue) else [JValue.obj syn])
    else pure []
  pure (synthetic ++ (if truthy inputs then [inputs] else []))

/-- The installer's UI branch over the elements of the `nodes` array
(non-dict elements are skipped). -/
def collectUIList : List JValue → Except Unit (List JValue)
  | [] => Except.ok []
  | JValue.obj fields :: rest => do
    let xs ← collectUINode fields
    let ys ← collectUIList rest
    pure (xs ++ ys)
  | _ :: rest => collectUIList rest

/-- The installer's node-input collection: API format first (every
top-level dict value with an `inputs` key contributes that value), else the
UI branch over the `nodes` array.  A UI `nodes` value that is a string or
dict iterates to non-dict elements and contributes nothing; a scalar raises
`TypeError`. -/
def collectNodesInstaller (w : JValue) : Except Unit (List JValue) :=
  match w with
  | JValue.obj kvs =>
    let api := kvs.filterMap fun kv =>
      match kv.2 with
      | JValue.obj fields => fields.lookup "inputs"
      | _ => none
    if api.isEmpty then
      match kvs.lookup "nodes" with
      | some (JValue.arr ns) => collectUIList ns
      | some (JValue.str _) => Except.ok []
      | some (JValue.obj _) => Except.ok []
      | some _ => Except.error ()
      | none => Except.ok []
    else Except.ok api
  | _ => Except.ok []

/-- The per-value filter of the installer's extraction loop: recognized
model-input key, non-blank string value, not a known non-model extension,
not a placeholder name.  URLs are deliberately kept (the source comment:
allow URLs now, do not filter them out). -/
def keepInstaller (key : String) (v : JValue) : Option String :=
  if model_input_keys.any (fun mk => pyContainsSub (pyLower key) mk) then
    match v with
    | JValue.str s =>
      if pyStrip s = "" then none
      else if non_model_extensions.any (fun e => pyEndsWith (pyLower s) e) then none
      else if placeholder_names.contains (pyLower s) then none
      else some s
    | _ => none
  else none

/-- The per-value filter of the preload variant: additionally drops values
starting with `http`, `data:`, `/` or `.` before the extension and
placeholder checks. -/
def keepPreload (key : String) (v : JValue) : Option String :=
  if model_input_keys.any (fun mk => pyContainsSub (pyLower key) mk) then
    match v with
    | JValue.str s =>
      if pyStrip s = "" then none
      else if ["http", "data:", "/", "."].any (fun p => pyStartsWith (pyLower s) p) then none
      else if non_model_extensions.any (fun e => pyEndsWith (pyLower s) e) then none
      else if placeholder_names.contains (pyLower s) then none
      else some s
    | _ => none
  else none

/-- Insertion into the Python `weights` set. -/
def addWeight (acc : List String) (s : String) : List String :=
  if acc.contains s then acc else acc ++ [s]

/-- The shared extraction loop: for every collected dict of node inputs,
run the per-value filter over its key/value pairs in order; non-dict
entries are skipped by the `isinstance` check. -/
def scanInputs (keep : String → JValue → Option String) :
    List String → List JValue → List String
  | acc, [] => acc
  | acc, JValue.obj fields :: rest =>
    scanInputs keep
      (fields.foldl (fun a kv =>
        match keep kv.1 kv.2 with
        | some s => addWeight a s
        | none => a) acc) rest
  | acc, _ :: rest => scanInputs keep acc rest

/-- `extract_weights_from_workflow` of `workflow_dependency_installer.py`.
An exception during node-input collection is caught by the surrounding
try/except, which returns the weights collected so far — the empty set. -/
def extract_weights_installer (w : JValue) : List String :=
  match collectNodesInstaller w with
  | Except.error _ => []
  | Except.ok nodes => scanInputs keepInstaller [] nodes

/-- The node-input collection of the preload variant:
`nodes.append(node.get("widgets_values", node.get("inputs", {})))` for
every dict element of the `nodes` array.  No step of this collection can
raise on decoded JSON, and a non-array `nodes` value yields no dict
elements (or raises, with the handler returning the — then empty — set),
so the not-an-array cases all contribute nothing. -/
def collectNodesPreload (w : JValue) : List JValue :=
  match w with
  | JValue.obj kvs =>
    let api := kvs.filterMap fun kv =>
      match kv.2 with
      | JValue.obj fields => fields.lookup "inputs"
      | _ => none
    if api.isEmpty then
      match kvs.lookup "nodes" with
      | some (JValue.arr ns) =>
        ns.filterMap fun n =>
          match n with
          | JValue.obj fields =>
            some (jGetD fields "widgets_values" (jGetD fields "inputs" (JValue.obj [])))
          | _ => none
      | _ => []
    else api
  | _ => []

/-- `extract_weights_from_workflow` of `preload_workflows_build.py`. -/
def extract_weights_preload (w : JValue) : List String :=
  scanInputs keepPreload [] (collectNodesPreload w)

/-! ## Concrete workflows used as test inputs -/

/-- API-format workflow whose checkpoint name is a URL. -/
def exampleUrlWorkflow : JValue :=
  JValue.obj [("1", JValue.obj [("inputs",
    JValue.obj [("ckpt_name", JValue.str "https://example.com/model.safetensors")])])]

/-- API-format workflow with an ordinary checkpoint name. -/
def examplePlainWorkflow : JValue :=
  JValue.obj [("1", JValue.obj [("inputs",
    JValue.obj [("ckpt_name", JValue.str "model.safetensors")])])]

/-- API-format workflow containing a node of the base class `KSampler`. -/
def exampleKSamplerWorkflow : JValue :=
  JValue.obj [("1", JValue.obj [("class_type", JValue.str "KSampler")])]

/-- UI-format workflow whose first node raises inside the widget synthesis
(`len(5)` is a `TypeError`) while its second node holds a valid weight
reference. -/
def exampleCrashWorkflow : JValue :=
  JValue.obj [("nodes", JValue.arr [
    JValue.obj [("type", JValue.str "checkpointloader"), ("widgets_values", JValue.num 5)],
    JValue.obj [("inputs", JValue.obj [("ckpt_name", JValue.str "model.safetensors")])]])]

/-- `exampleCrashWorkflow` with the raising node removed. -/
def exampleCrashWorkflowTail : JValue :=
  JValue.obj [("nodes", JValue.arr [
    JValue.obj [("inputs", JValue.obj [("ckpt_name", JValue.str "model.safetensors")])]])]

/-! # Theorems -/

/-! ## C6: disk preflight -/

/-- C6: with 5 GB available and 20 GB required `check_disk_space` returns
false; with 40 GB available and 20 GB required it returns true; when free
space cannot be determined (reported negative) it returns true; and a false
result makes `preload_all_workflows` abort before any download is
attempted. -/
theorem c6_disk_preflight :
    check_disk_space (5 * 1024 * 1024 * 1024) (20 * 1024 * 1024 * 1024) = false ∧
    check_disk_space (40 * 1024 * 1024 * 1024) (20 * 1024 * 1024 * 1024) = true ∧
    (∀ a r : Int, a < 0 → check_disk_space a r = true) ∧
    (∀ (a r : Int) (ws : List String), check_disk_space a r = false →
      preload_downloads_attempted a r ws = []) := by
  refine ⟨by decide, by decide, ?_, ?_⟩
  · intro a r ha
    simp [check_disk_space, ha]
  · intro a r ws h
    simp [preload_downloads_attempted, h]

/-- Witness for C6 at concrete inputs. -/
theorem c6_disk_preflight_witness :
    check_disk_space (-1) (20 * 1024 * 1024 * 1024) = true ∧
    preload_downloads_attempted 0 (30 * 1024 * 1024 * 1024) ["w"] = [] := by
  constructor
  · exact c6_disk_preflight.2.2.1 (-1) (20 * 1024 * 1024 * 1024) (by decide)
  · exact c6_disk_preflight.2.2.2 0 (30 * 1024 * 1024 * 1024) ["w"] (by decide)

/-! ## C3: model-type classifier -/

/-- C3 counterexample: the claim asserts
`detect_model_type("sd_xl_base_1.0.safetensors", "")` returns
`checkpoints` (no keyword group matching), but the `sd_` keyword of the
`diffusion_models` group matches, so the code returns `diffusion_models`. -/
theorem c3_counterexample :
    detect_model_type "sd_xl_base_1.0.safetensors" "" = "diffusion_models" ∧
    detect_model_type "sd_xl_base_1.0.safetensors" "" ≠ "checkpoints" := by
  constructor
  · decide
  · decide

/-- C3 amended: the lora and controlnet examples hold as claimed;
`sd_xl_base_1.0.safetensors` is classified as `diffusion_models` (it
matches the `sd_` keyword), not `checkpoints`; and any filename/url pair
matching no keyword of any group falls to the default `checkpoints`
bucket. -/
theorem c3_model_type_examples :
    detect_model_type "my_lora_v2.safetensors" "" = "loras" ∧
    detect_model_type "controlnet_canny.pth" "" = "controlnet" ∧
    detect_model_type "sd_xl_base_1.0.safetensors" "" = "diffusion_models" ∧
    (∀ filename url : String,
      (∀ p ∈ model_type_patterns, ∀ k ∈ p.2,
        pyContainsSub (pyLower filename ++ "|" ++ pyLower url) k = false) →
      detect_model_type filename url = "checkpoints") := by
  refine ⟨by decide, by decide, by decide, ?_⟩
  intro f u h
  have hnone : model_type_patterns.find?
      (fun p => p.2.any (fun k => pyContainsSub (pyLower f ++ "|" ++ pyLower u) k)) = none := by
    apply List.find?_eq_none.mpr
    intro p hp
    intro hcontra
    rw [List.any_eq_true] at hcontra
    obtain ⟨k, hk, hck⟩ := hcontra
    rw [h p hp k hk] at hck
    exact Bool.false_ne_true hck
  have hdef : detect_model_type f u =
      match model_type_patterns.find?
        (fun p => p.2.any (fun k => pyContainsSub (pyLower f ++ "|" ++ pyLower u) k)) with
      | some p => p.1
      | none => "checkpoints" := rfl
  rw [hdef, hnone]

/-- Witness for C3's default-bucket clause at a keyword-free input. -/
theorem c3_model_type_examples_witness :
    detect_model_type "foo.bin" "" = "checkpoints" :=
  c3_model_type_examples.2.2.2 "foo.bin" "" (by decide)

/-! ## C7: canonicalization -/

/-- Dropping a list-length offset of an appended list. -/
theorem drop_len_add_append (p q : List Char) (n : Nat) :
    List.drop (p.length + n) (p ++ q) = List.drop n q := by
  induction p with
  | nil => simp
  | cons a p ih => simp [Nat.succ_add, ih]

/-- No name ending in `.safetensors` still ends in `.sft`. -/
theorem hasSuffix_append_safetensors (p : List Char) :
    hasSuffixCL (p ++ safetensorsSuffix) sftSuffix = false := by
  unfold hasSuffixCL
  have hlen : (p ++ safetensorsSuffix).length - sftSuffix.length = p.length + 8 := by
    simp [safetensorsSuffix, sftSuffix]
  rw [hlen, drop_len_add_append]
  decide

/-- Canonicalization is idempotent on character lists. -/
theorem canonCL_idem (l : List Char) : canonCL (canonCL l) = canonCL l := by
  by_cases h : hasSuffixCL l sftSuffix = true
  · have h2 : canonCL l = l.take (l.length - 4) ++ safetensorsSuffix := by
      unfold canonCL
      rw [if_pos h]
    rw [h2]
    unfold canonCL
    rw [if_neg (by simp [hasSuffix_append_safetensors])]
  · have h2 : canonCL l = l := by
      unfold canonCL
      rw [if_neg h]
    simp only [h2]

/-- C7: weight-name canonicalization is idempotent and rewrites the `.sft`
suffix to `.safetensors`; being a plain function of the input string it is
deterministic across scan orders by construction. -/
theorem c7_canonicalization_idempotent :
    (∀ w : String,
      get_canonical_weight_str (get_canonical_weight_str w) = get_canonical_weight_str w) ∧
    get_canonical_weight_str "model.sft" = "model.safetensors" := by
  constructor
  · intro w
    show String.mk (canonCL (String.mk (canonCL w.data)).data) = String.mk (canonCL w.data)
    exact congrArg String.mk (canonCL_idem w.data)
  · decide

/-! ## C10: clone-destination collisions -/

/-- C10: the clone destination is keyed only on the derived repository
name, so of two distinct URLs with equal derived names the second is
treated as already present and `clone_repo` returns without cloning. -/
theorem c10_clone_destination_collision (fs : List String) (u1 u2 : String)
    (hfirst : repo_name_of_url u1 ∉ fs)
    (_hne : u1 ≠ u2)
    (hsame : repo_name_of_url u1 = repo_name_of_url u2) :
    (clone_repo_fs_step fs u1).1 = true ∧
    (clone_repo_fs_step ((clone_repo_fs_step fs u1).2) u2).1 = false := by
  have hmem : repo_name_of_url u2 ∈ repo_name_of_url u1 :: fs := by
    rw [← hsame]
    exact List.mem_cons_self _ _
  constructor
  · simp [clone_repo_fs_step, hfirst]
  · simp [clone_repo_fs_step, hfirst, hmem]

/-- Witness for C10: two distinct GitHub URLs both deriving the
destination name `ComfyUI-Tools`. -/
theorem c10_clone_destination_collision_witness :
    (clone_repo_fs_step [] "https://github.com/alice/ComfyUI-Tools").1 = true ∧
    (clone_repo_fs_step ((clone_repo_fs_step [] "https://github.com/alice/ComfyUI-Tools").2)
      "https://github.com/bob/ComfyUI-Tools.git").1 = false :=
  c10_clone_destination_collision [] "https://github.com/alice/ComfyUI-Tools"
    "https://github.com/bob/ComfyUI-Tools.git" (by decide) (by decide) (by decide)

/-! ## C2: the base allow-list and the analyzer -/

/-- C2 counterexample: the analyzer itself does not exclude base classes —
a workflow containing a `KSampler` node yields a class-name set containing
`KSampler`, which is in `BASE_COMFY_NODES`. -/
theorem c2_counterexample :
    (extract_nodes_from_workflow exampleKSamplerWorkflow).contains (JValue.str "KSampler")
      = true ∧
    BASE_COMFY_NODES.contains "KSampler" = true := by
  constructor
  · decide
  · decide

/-- C2 amended: the base-class exclusion happens in `install_custom_nodes`
(not in the analyzer): its `custom_nodes_needed` set excludes every name of
`BASE_COMFY_NODES`. -/
theorem c2_base_filter_in_installer (node_types : List String) (n : String)
    (hn : BASE_COMFY_NODES.contains n = true) :
    n ∉ custom_nodes_needed node_types := by
  intro hmem
  unfold custom_nodes_needed at hmem
  rw [List.mem_filter, hn] at hmem
  simp at hmem

/-- Witness for C2 at the `KSampler` class. -/
theorem c2_base_filter_in_installer_witness :
    "KSampler" ∉ custom_nodes_needed ["KSampler", "FooCustomNode"] :=
  c2_base_filter_in_installer ["KSampler", "FooCustomNode"] "KSampler" (by decide)

/-! ## C5: bounded retry with exponential backoff -/

/-- C5: both retry loops make at most 3 attempts, clean the partial
destination after each failure, sleep 1 then 2 time units before the second
and third attempts, return as soon as an attempt succeeds, and report
failure (the raised exception) only after all 3 attempts fail.  The
statement is the complete case analysis of both traces over the attempt
oracles. -/
theorem c5_retry_backoff (oc od : Nat → Bool) :
    clone_repo_run oc =
      (if oc 0 then ([REv.attempt 0], true)
       else if oc 1 then
         ([REv.attempt 0, REv.cleanup, REv.sleep 1, REv.attempt 1], true)
       else if oc 2 then
         ([REv.attempt 0, REv.cleanup, REv.sleep 1, REv.attempt 1, REv.cleanup,
           REv.sleep 2, REv.attempt 2], true)
       else
         ([REv.attempt 0, REv.cleanup, REv.sleep 1, REv.attempt 1, REv.cleanup,
           REv.sleep 2, REv.attempt 2, REv.cleanup], false)) ∧
    download_from_url_run od =
      (if od 0 then ([DEv.attempt 0], true)
       else if od 1 then
         ([DEv.attempt 0, DEv.cleanup, DEv.sleep 1, DEv.attempt 1], true)
       else if od 2 then
         ([DEv.attempt 0, DEv.cleanup, DEv.sleep 1, DEv.attempt 1, DEv.cleanup,
           DEv.sleep 2, DEv.attempt 2], true)
       else
         ([DEv.attempt 0, DEv.cleanup, DEv.sleep 1, DEv.attempt 1, DEv.cleanup,
           DEv.sleep 2, DEv.attempt 2, DEv.cleanup], false)) := by
  constructor
  · by_cases h0 : oc 0 = true
    · simp [clone_repo_run, cloneLoop, h0]
    · by_cases h1 : oc 1 = true
      · simp [clone_repo_run, cloneLoop, h0, h1]
      · by_cases h2 : oc 2 = true
        · simp [clone_repo_run, cloneLoop, h0, h1, h2]
        · simp [clone_repo_run, cloneLoop, h0, h1, h2]
  · by_cases h0 : od 0 = true
    · simp [download_from_url_run, downloadLoop, h0]
    · by_cases h1 : od 1 = true
      · simp [download_from_url_run, downloadLoop, h0, h1]
      · by_cases h2 : od 2 = true
        · simp [download_from_url_run, downloadLoop, h0, h1, h2]
        · simp [download_from_url_run, downloadLoop, h0, h1, h2]

/-! ## C1: resumption safety of the install loops -/

/-- A repository already in the ledger is never cloned: the ledger only
grows, so a ledger hit stays a ledger hit. -/
theorem clone_notMem_of_mem_ledger (ok : String → Bool) (repos : List String) :
    ∀ (ledger : List String) (r : String), r ∈ ledger →
      IEv.clone r ∉ installReposLoop ok repos ledger := by
  induction repos with
  | nil =>
    intro ledger r _
    simp [installReposLoop]
  | cons a rest ih =>
    intro ledger r hr
    simp only [installReposLoop]
    by_cases ha : a ∈ ledger
    · rw [if_pos ha]
      intro hmem
      rcases List.mem_cons.mp hmem with h | h
      · exact IEv.noConfusion h
      · exact ih ledger r hr h
    · rw [if_neg ha]
      by_cases hok : ok a = true
      · rw [if_pos hok]
        intro hmem
        rcases List.mem_cons.mp hmem with h | h
        · injection h with h2
          exact ha (h2 ▸ hr)
        · rcases List.mem_cons.mp h with h2 | h2
          · exact IEv.noConfusion h2
          · exact ih (a :: ledger) r (List.mem_cons_of_mem a hr) h2
      · rw [if_neg hok]
        intro hmem
        rcases List.mem_cons.mp hmem with h | h
        · exact IEv.noConfusion h
        · rcases List.mem_cons.mp h with h2 | h2
          · exact IEv.noConfusion h2
          · exact absurd h2 (List.not_mem_nil _)

/-- When every clone succeeds, every pending repository not in the ledger
is cloned. -/
theorem clone_mem_of_all_ok (ok : String → Bool) (hall : ∀ u, ok u = true)
    (repos : List String) :
    ∀ (ledger : List String) (r : String), r ∈ repos → r ∉ ledger →
      IEv.clone r ∈ installReposLoop ok repos ledger := by
  induction repos with
  | nil =>
    intro ledger r h _
    exact absurd h (List.not_mem_nil r)
  | cons a rest ih =>
    intro ledger r hr hnl
    simp only [installReposLoop]
    by_cases ha : a ∈ ledger
    · rw [if_pos ha]
      rcases List.mem_cons.mp hr with h | h
      · exact absurd (h ▸ ha) hnl
      · exact List.mem_cons_of_mem _ (ih ledger r h hnl)
    · rw [if_neg ha, if_pos (hall a)]
      by_cases hra : r = a
      · subst hra
        exact List.mem_cons_self _ _
      · rcases List.mem_cons.mp hr with h | h
        · exact absurd h hra
        · refine List.mem_cons_of_mem _ (List.mem_cons_of_mem _ (ih (a :: ledger) r h ?_))
          intro hm
          rcases List.mem_cons.mp hm with h2 | h2
          · exact hra h2
          · exact hnl h2

/-- Every clone in a repository-install trace is immediately followed by a
ledger save containing the cloned URL. -/
theorem savesAfterClones_installReposLoop (ok : String → Bool) (repos : List String) :
    ∀ ledger, savesAfterClones (installReposLoop ok repos ledger) = true := by
  induction repos with
  | nil =>
    intro ledger
    rfl
  | cons a rest ih =>
    intro ledger
    simp only [installReposLoop]
    by_cases ha : a ∈ ledger
    · rw [if_pos ha]
      simpa [savesAfterClones] using ih ledger
    · rw [if_neg ha]
      by_cases hok : ok a = true
      · rw [if_pos hok]
        simp [savesAfterClones, ih (a :: ledger)]
      · rw [if_neg hok]
        rfl

/-- A weight already in the ledger is never downloaded again. -/
theorem download_notMem_of_mem_ledger (ok : String → Bool) (ws : List String) :
    ∀ (ledger : List String) (w : String), w ∈ ledger →
      WEv.download w ∉ downloadWeightsLoop ok ws ledger := by
  induction ws with
  | nil =>
    intro ledger w _
    simp [downloadWeightsLoop]
  | cons a rest ih =>
    intro ledger w hw
    simp only [downloadWeightsLoop]
    by_cases ha : a ∈ ledger
    · rw [if_pos ha]
      intro hmem
      rcases List.mem_cons.mp hmem with h | h
      · exact WEv.noConfusion h
      · exact ih ledger w hw h
    · rw [if_neg ha]
      by_cases hok : ok a = true
      · rw [if_pos hok]
        intro hmem
        rcases List.mem_cons.mp hmem with h | h
        · injection h with h2
          exact ha (h2 ▸ hw)
        · rcases List.mem_cons.mp h with h2 | h2
          · exact WEv.noConfusion h2
          · exact ih (a :: ledger) w (List.mem_cons_of_mem a hw) h2
      · rw [if_neg hok]
        intro hmem
        rcases List.mem_cons.mp hmem with h | h
        · exact WEv.noConfusion h
        · rcases List.mem_cons.mp h with h2 | h2
          · exact WEv.noConfusion h2
          · exact absurd h2 (List.not_mem_nil _)

/-- When every download succeeds, every pending weight not in the ledger is
downloaded. -/
theorem download_mem_of_all_ok (ok : String → Bool) (hall : ∀ u, ok u = true)
    (ws : List String) :
    ∀ (ledger : List String) (w : String), w ∈ ws → w ∉ ledger →
      WEv.download w ∈ downloadWeightsLoop ok ws ledger := by
  induction ws with
  | nil =>
    intro ledger w h _
    exact absurd h (List.not_mem_nil w)
  | cons a rest ih =>
    intro ledger w hw hnl
    simp only [downloadWeightsLoop]
    by_cases ha : a ∈ ledger
    · rw [if_pos ha]
      rcases List.mem_cons.mp hw with h | h
      · exact absurd (h ▸ ha) hnl
      · exact List.mem_cons_of_mem _ (ih ledger w h hnl)
    · rw [if_neg ha, if_pos (hall a)]
      by_cases hwa : w = a
      · subst hwa
        exact List.mem_cons_self _ _
      · rcases List.mem_cons.mp hw with h | h
        · exact absurd h hwa
        · refine List.mem_cons_of_mem _ (List.mem_cons_of_mem _ (ih (a :: ledger) w h ?_))
          intro hm
          rcases List.mem_cons.mp hm with h2 | h2
          · exact hwa h2
          · exact hnl h2

/-- Every download in a weight trace is immediately followed by a ledger
save containing the downloaded weight. -/
theorem savesAfterDownloads_downloadWeightsLoop (ok : String → Bool) (ws : List String) :
    ∀ ledger, savesAfterDownloads (downloadWeightsLoop ok ws ledger) = true := by
  induction ws with
  | nil =>
    intro ledger
    rfl
  | cons a rest ih =>
    intro ledger
    simp only [downloadWeightsLoop]
    by_cases ha : a ∈ ledger
    · rw [if_pos ha]
      simpa [savesAfterDownloads] using ih ledger
    · rw [if_neg ha]
      by_cases hok : ok a = true
      · rw [if_pos hok]
        simp [savesAfterDownloads, ih (a :: ledger)]
      · rw [if_neg hok]
        rfl

/-- C1: re-running the install with a ledger holding a subset of the
required items never clones a ledgered repository nor re-downloads a
ledgered weight, completes every remaining item when the per-item installs
succeed, and persists the ledger immediately after each successful item,
before the next one is attempted. -/
theorem c1_resumption_safety (okR : String → Bool) (repos ledgerR : List String)
    (okW : String → Bool) (weights ledgerW : List String) :
    (∀ r ∈ ledgerR, IEv.clone r ∉ installReposLoop okR repos ledgerR) ∧
    ((∀ u, okR u = true) → ∀ r ∈ repos, r ∉ ledgerR →
      IEv.clone r ∈ installReposLoop okR repos ledgerR) ∧
    savesAfterClones (installReposLoop okR repos ledgerR) = true ∧
    (∀ w ∈ ledgerW, WEv.download w ∉ downloadWeightsLoop okW weights ledgerW) ∧
    ((∀ u, okW u = true) → ∀ w ∈ weights, w ∉ ledgerW →
      WEv.download w ∈ downloadWeightsLoop okW weights ledgerW) ∧
    savesAfterDownloads (downloadWeightsLoop okW weights ledgerW) = true := by
  refine ⟨?_, ?_, ?_, ?_, ?_, ?_⟩
  · intro r hr
    exact clone_notMem_of_mem_ledger okR repos ledgerR r hr
  · intro hall r hr hnl
    exact clone_mem_of_all_ok okR hall repos ledgerR r hr hnl
  · exact savesAfterClones_installReposLoop okR repos ledgerR
  · intro w hw
    exact download_notMem_of_mem_ledger okW weights ledgerW w hw
  · intro hall w hw hnl
    exact download_mem_of_all_ok okW hall weights ledgerW w hw hnl
  · exact savesAfterDownloads_downloadWeightsLoop okW weights ledgerW

/-- Witness for C1 on a two-repository, two-weight resumption with the
first item of each kind already in the ledger. -/
theorem c1_resumption_safety_witness :
    IEv.clone "repoA" ∉ installReposLoop (fun _ => true) ["repoA", "repoB"] ["repoA"] ∧
    IEv.clone "repoB" ∈ installReposLoop (fun _ => true) ["repoA", "repoB"] ["repoA"] ∧
    WEv.download "w1" ∉ downloadWeightsLoop (fun _ => true) ["w1", "w2"] ["w1"] ∧
    WEv.download "w2" ∈ downloadWeightsLoop (fun _ => true) ["w1", "w2"] ["w1"] := by
  refine ⟨?_, ?_, ?_, ?_⟩
  · exact (c1_resumption_safety (fun _ => true) ["repoA", "repoB"] ["repoA"]
      (fun _ => true) ["w1", "w2"] ["w1"]).1 "repoA" (by decide)
  · exact (c1_resumption_safety (fun _ => true) ["repoA", "repoB"] ["repoA"]
      (fun _ => true) ["w1", "w2"] ["w1"]).2.1 (fun _ => rfl) "repoB" (by decide) (by decide)
  · exact (c1_resumption_safety (fun _ => true) ["repoA", "repoB"] ["repoA"]
      (fun _ => true) ["w1", "w2"] ["w1"]).2.2.2.1 "w1" (by decide)
  · exact (c1_resumption_safety (fun _ => true) ["repoA", "repoB"] ["repoA"]
      (fun _ => true) ["w1", "w2"] ["w1"]).2.2.2.2.1 (fun _ => rfl) "w2" (by decide) (by decide)

/-! ## C4, C8, C9: properties of the weight-extraction filters -/

/-- Membership after a set insertion. -/
theorem mem_addWeight {acc : List String} {t s : String} (h : s ∈ addWeight acc t) :
    s ∈ acc ∨ s = t := by
  unfold addWeight at h
  by_cases hc : acc.contains t = true
  · rw [if_pos hc] at h
    exact Or.inl h
  · rw [if_neg hc] at h
    rcases List.mem_append.mp h with h2 | h2
    · exact Or.inl h2
    · exact Or.inr (List.mem_singleton.mp h2)

/-- Anything collected while folding the per-value filter over one input
dict was in the accumulator already or was produced by the filter. -/
theorem mem_foldl_keep (keep : String → JValue → Option String)
    (fields : List (String × JValue)) :
    ∀ (acc : List String) (s : String),
      s ∈ fields.foldl (fun a kv =>
        match keep kv.1 kv.2 with
        | some t => addWeight a t
        | none => a) acc →
      s ∈ acc ∨ ∃ k v, keep k v = some s := by
  induction fields with
  | nil =>
    intro acc s h
    exact Or.inl h
  | cons kv rest ih =>
    intro acc s h
    rw [List.foldl_cons] at h
    rcases ih _ s h with h2 | h2
    · cases hk : keep kv.1 kv.2 with
      | some t =>
        rw [hk] at h2
        rcases mem_addWeight h2 with h3 | h3
        · exact Or.inl h3
        · exact Or.inr ⟨kv.1, kv.2, by rw [hk, h3]⟩
      | none =>
        rw [hk] at h2
        exact Or.inl h2
    · exact Or.inr h2

/-- Anything in the output of the extraction loop was in the accumulator
already or was produced by the per-value filter of some scanned input. -/
theorem mem_scanInputs (keep : String → JValue → Option String) (nodes : List JValue) :
    ∀ (acc : List String) (s : String), s ∈ scanInputs keep acc nodes →
      s ∈ acc ∨ ∃ k v, keep k v = some s := by
  induction nodes with
  | nil =>
    intro acc s h
    exact Or.inl h
  | cons n rest ih =>
    intro acc s h
    cases n with
    | obj fields =>
      simp only [scanInputs] at h
      rcases ih _ s h with h2 | h2
      · exact mem_foldl_keep keep fields acc s h2
      · exact Or.inr h2
    | null => exact ih acc s h
    | bool b => exact ih acc s h
    | num m => exact ih acc s h
    | str t => exact ih acc s h
    | arr l => exact ih acc s h

/-- What the installer's per-value filter guarantees about a kept value:
it is the scanned string itself, non-blank, not ending in a non-model
extension and not a placeholder name. -/
theorem keepInstaller_eq_some {k : String} {v : JValue} {s : String}
    (h : keepInstaller k v = some s) :
    v = JValue.str s ∧
    (non_model_extensions.any (fun e => pyEndsWith (pyLower s) e)) = false ∧
    placeholder_names.contains (pyLower s) = false := by
  unfold keepInstaller at h
  split at h
  · split at h
    · split at h
      · exact absurd h (by simp)
      · rename_i hstrip
        split at h
        · exact absurd h (by simp)
        · rename_i hext
          split at h
          · exact absurd h (by simp)
          · rename_i hplace
            injection h with hts
            subst hts
            exact ⟨rfl, Bool.eq_false_iff.mpr hext, Bool.eq_false_iff.mpr hplace⟩
    · exact absurd h (by simp)
  · exact absurd h (by simp)

/-- What the preload variant's per-value filter guarantees about a kept
value: additionally it carries none of the URL / data-URI / path
prefixes. -/
theorem keepPreload_eq_some {k : String} {v : JValue} {s : String}
    (h : keepPreload k v = some s) :
    v = JValue.str s ∧
    (["http", "data:", "/", "."].any (fun p => pyStartsWith (pyLower s) p)) = false ∧
    (non_model_extensions.any (fun e => pyEndsWith (pyLower s) e)) = false ∧
    placeholder_names.contains (pyLower s) = false := by
  unfold keepPreload at h
  split at h
  · split at h
    · split at h
      · exact absurd h (by simp)
      · rename_i hstrip
        split at h
        · exact absurd h (by simp)
        · rename_i hpre
          split at h
          · exact absurd h (by simp)
          · rename_i hext
            split at h
            · exact absurd h (by simp)
            · rename_i hplace
              injection h with hts
              subst hts
              exact ⟨rfl, Bool.eq_false_iff.mpr hpre, Bool.eq_false_iff.mpr hext,
                Bool.eq_false_iff.mpr hplace⟩
    · exact absurd h (by simp)
  · exact absurd h (by simp)

/-- C4 counterexample: the claim says URL values under recognized model
keys are excluded from the analysis, but the installer's extractor
deliberately keeps them — a workflow whose `ckpt_name` is an https URL
yields exactly that URL. -/
theorem c4_counterexample :
    extract_weights_installer exampleUrlWorkflow = ["https://example.com/model.safetensors"] ∧
    pyStartsWith (pyLower "https://example.com/model.safetensors") "http" = true := by
  constructor
  · decide
  · decide

/-- C4 amended: the preload extractor excludes URL / data-URI /
path-qualified values and values ending in a known non-model extension;
the installer's extractor applies only the non-model-extension exclusion
and keeps URLs. -/
theorem c4_exclusion_filters (w : JValue) (s : String) :
    (s ∈ extract_weights_preload w →
      (["http", "data:", "/", "."].any (fun p => pyStartsWith (pyLower s) p)) = false ∧
      (non_model_extensions.any (fun e => pyEndsWith (pyLower s) e)) = false) ∧
    (s ∈ extract_weights_installer w →
      (non_model_extensions.any (fun e => pyEndsWith (pyLower s) e)) = false) := by
  constructor
  · intro h
    unfold extract_weights_preload at h
    rcases mem_scanInputs keepPreload (collectNodesPreload w) [] s h with h2 | ⟨k, v, hkv⟩
    · exact absurd h2 (List.not_mem_nil s)
    · obtain ⟨-, hpre, hext, -⟩ := keepPreload_eq_some hkv
      exact ⟨hpre, hext⟩
  · intro h
    unfold extract_weights_installer at h
    cases hc : collectNodesInstaller w with
    | error e =>
      rw [hc] at h
      exact absurd h (List.not_mem_nil s)
    | ok nodes =>
      rw [hc] at h
      rcases mem_scanInputs keepInstaller nodes [] s h with h2 | ⟨k, v, hkv⟩
      · exact absurd h2 (List.not_mem_nil s)
      · exact (keepInstaller_eq_some hkv).2.1

/-- Witness for C4 at a plain checkpoint workflow. -/
theorem c4_exclusion_filters_witness :
    (["http", "data:", "/", "."].any
      (fun p => pyStartsWith (pyLower "model.safetensors") p)) = false ∧
    (non_model_extensions.any (fun e => pyEndsWith (pyLower "model.safetensors") e)) = false :=
  (c4_exclusion_filters examplePlainWorkflow "model.safetensors").1 (by decide)

/-- C9: a value under a recognized model-input key whose lowercased string
is one of the placeholder names (image, video, audio, input, text) never
reaches the extracted weight set — in either extractor variant. -/
theorem c9_placeholder_filtering (w : JValue) (s : String) :
    (s ∈ extract_weights_installer w → placeholder_names.contains (pyLower s) = false) ∧
    (s ∈ extract_weights_preload w → placeholder_names.contains (pyLower s) = false) := by
  constructor
  · intro h
    unfold extract_weights_installer at h
    cases hc : collectNodesInstaller w with
    | error e =>
      rw [hc] at h
      exact absurd h (List.not_mem_nil s)
    | ok nodes =>
      rw [hc] at h
      rcases mem_scanInputs keepInstaller nodes [] s h with h2 | ⟨k, v, hkv⟩
      · exact absurd h2 (List.not_mem_nil s)
      · exact (keepInstaller_eq_some hkv).2.2
  · intro h
    unfold extract_weights_preload at h
    rcases mem_scanInputs keepPreload (collectNodesPreload w) [] s h with h2 | ⟨k, v, hkv⟩
    · exact absurd h2 (List.not_mem_nil s)
    · exact (keepPreload_eq_some hkv).2.2.2

/-- Witness for C9 at a plain checkpoint workflow. -/
theorem c9_placeholder_filtering_witness :
    placeholder_names.contains (pyLower "model.safetensors") = false :=
  (c9_placeholder_filtering examplePlainWorkflow "model.safetensors").1 (by decide)

/-- C8 counterexample: the claim says the extractor logs a per-node parse
error and continues with the remaining nodes.  In the code one try/except
wraps the whole scan, so the `TypeError` raised while synthesizing inputs
for the first node of `exampleCrashWorkflow` abandons the second node: the
result is empty, although the same workflow without the malformed node
yields the second node's weight. -/
theorem c8_counterexample :
    extract_weights_installer exampleCrashWorkflow = [] ∧
    extract_weights_installer exampleCrashWorkflowTail = ["model.safetensors"] := by
  constructor
  · decide
  · decide

/-- C8 amended: the extractor never propagates an exception — the
surrounding handler turns any error raised while collecting node inputs
into the weight set gathered so far (the empty set, abandoning the
remaining nodes rather than continuing); values failing the recognized
key / extension / placeholder filters are dropped, every returned weight
having passed the per-value filter. -/
theorem c8_analyzer_error_behavior (w : JValue) :
    (collectNodesInstaller w = Except.error () → extract_weights_installer w = []) ∧
    (∀ s, s ∈ extract_weights_installer w → ∃ k v, keepInstaller k v = some s) := by
  constructor
  · intro h
    unfold extract_weights_installer
    rw [h]
  · intro s h
    unfold extract_weights_installer at h
    cases hc : collectNodesInstaller w with
    | error e =>
      rw [hc] at h
      exact absurd h (List.not_mem_nil s)
    | ok nodes =>
      rw [hc] at h
      rcases mem_scanInputs keepInstaller nodes [] s h with h2 | h2
      · exact absurd h2 (List.not_mem_nil s)
      · exact h2

/-- Witness for C8 at the crashing workflow and at a plain workflow. -/
theorem c8_analyzer_error_behavior_witness :
    extract_weights_installer exampleCrashWorkflow = [] ∧
    (∃ k v, keepInstaller k v = some "model.safetensors") := by
  constructor
  · exact (c8_analyzer_error_behavior exampleCrashWorkflow).1 (by rfl)
  · exact (c8_analyzer_error_behavior examplePlainWorkflow).2 "model.safetensors" (by decide)
